import Mathlib

/-!
Shallow embedding of `src/QueuedStoreGroup.ts` (almin legacy-store-group).

Stores are identified by natural numbers (reference identity).  The mutable
fields of the `QueuedStoreGroup` instance become the fields of `GroupState`;
each method becomes a pure function from states to states, returning in
addition the notification it emitted (`Option (List Nat)`: the payload of the
single `CHANGE_STORE_GROUP` event, or `none`).

The external almin framework (the `Dispatcher` base class, `onDispatch`,
`Store#onChange`, `pipe`, and the unsubscribe capabilities they return) is not
part of this repository; where its behaviour decides a claim it is modelled
from the spec, and the corresponding definition says so in its doc comment.
-/

namespace QueuedStoreGroupModel

/-- The unsubscribe capabilities stored in `this._releaseHandlers`.
`unlistenDispatch` is the capability returned by `this.onDispatch(tryToEmitChange)`;
`unlistenStoreChange store` / `unpipe store` are the two capabilities pushed by
`_registerStore`; `removeGroupListener id` is the capability returned by
`onChange` for subscriber `id`. -/
inductive Handler where
  | unlistenDispatch : Handler
  | unlistenStoreChange (store : Nat) : Handler
  | unpipe (store : Nat) : Handler
  | removeGroupListener (id : Nat) : Handler
  deriving DecidableEq, Repr

/-- The instance state of a `QueuedStoreGroup`:
`releaseHandlers` is `this._releaseHandlers`, `currentChangingStores` is
`this._currentChangingStores`, `stores` is `this.stores`,
`isAnyOneStoreChanged` is `this._isAnyOneStoreChanged` (never initialised in
the source, hence `undefined`, which behaves as `false`).  The remaining three
fields record which subscriptions are currently wired in the external event
system: the dispatch listener, each store's change listener, and the piped
stores. -/
structure GroupState where
  releaseHandlers : List Handler
  currentChangingStores : List Nat
  stores : List Nat
  isAnyOneStoreChanged : Bool
  dispatchWired : Bool
  storeChangeWired : List Nat
  pipedStores : List Nat
  groupListeners : List Nat
  deriving DecidableEq, Repr

/-- The payload taxonomy tested by `tryToEmitChange` via `instanceof`:
`error` / `didExecuted` / `completed` match `ErrorPayload` /
`DidExecutedPayload` / `CompletedPayload`; `plain` is any other payload. -/
inductive PayloadKind where
  | plain : PayloadKind
  | error : PayloadKind
  | didExecuted : PayloadKind
  | completed : PayloadKind
  deriving DecidableEq, Repr

/-- `DispatcherPayloadMeta`: the two fields `tryToEmitChange` reads. -/
structure DispatchMeta where
  isTrusted : Bool
  parentUseCase : Option Nat
  deriving DecidableEq, Repr

/-- `get hasChangingStore(): boolean { return this.currentChangingStores.length !== 0; }` -/
def hasChangingStore (s : GroupState) : Bool :=
  s.currentChangingStores.length != 0

/-- `_pruneCurrentChangingStores(): this._currentChangingStores.length = 0;` -/
def pruneCurrentChangingStores (s : GroupState) : GroupState :=
  { s with currentChangingStores := [] }

/-- The anonymous `store.onChange(() => { ... })` callback installed by
`_registerStore`: prune the cache if the flag is down, raise the flag, then
append the store unless it is already present (dedup via `indexOf`). -/
def storeOnChange (store : Nat) (s : GroupState) : GroupState :=
  let s1 := if !s.isAnyOneStoreChanged then pruneCurrentChangingStores s else s
  let s2 := { s1 with isAnyOneStoreChanged := true }
  let isStoreAlreadyChanging := s2.currentChangingStores.contains store
  if isStoreAlreadyChanging then s2
  else { s2 with currentChangingStores := s2.currentChangingStores ++ [store] }

/-- `emitChange()`: no-op when the flag is down; otherwise emit one
`CHANGE_STORE_GROUP` event whose payload is `this._currentChangingStores.slice()`
(the `.slice()` copy is what licenses modelling the payload as an immutable
value), then reset the flag.  The set itself is not cleared. -/
def emitChange (s : GroupState) : GroupState × Option (List Nat) :=
  if !s.isAnyOneStoreChanged then (s, none)
  else ({ s with isAnyOneStoreChanged := false }, some s.currentChangingStores)

/-- The `tryToEmitChange` closure from the constructor, with the captured
`asap` option passed explicitly.  The branch order is exactly the source's:
`!meta.isTrusted` first, then `ErrorPayload`, then `DidExecutedPayload`
(early return when `!asap && parent`), then `CompletedPayload`. -/
def tryToEmitChange (asap : Bool) (payload : PayloadKind) (meta : DispatchMeta)
    (s : GroupState) : GroupState × Option (List Nat) :=
  if !meta.isTrusted then
    if hasChangingStore s then emitChange s else (s, none)
  else if payload = PayloadKind.error then
    if hasChangingStore s then emitChange s else (s, none)
  else if payload = PayloadKind.didExecuted then
    if !asap && meta.parentUseCase.isSome then (s, none)
    else if hasChangingStore s then emitChange s else (s, none)
  else if payload = PayloadKind.completed then
    if !asap && meta.parentUseCase.isSome then (s, none)
    else if hasChangingStore s then emitChange s else (s, none)
  else (s, none)

/-- `_registerStore(store)`: wire the store's change listener, pipe the store,
and append the two release handlers (in that order) to `_releaseHandlers`. -/
def registerStore (store : Nat) (s : GroupState) : GroupState :=
  { s with
    storeChangeWired := s.storeChangeWired ++ [store]
    pipedStores := s.pipedStores ++ [store]
    releaseHandlers :=
      s.releaseHandlers ++ [Handler.unlistenStoreChange store, Handler.unpipe store] }

/-- The release handlers contributed by `stores.forEach(store => this._registerStore(store))`. -/
def registrationHandlers : List Nat → List Handler
  | [] => []
  | store :: rest =>
      Handler.unlistenStoreChange store :: Handler.unpipe store ::
        registrationHandlers rest

/-- The constructor: empty handler list, empty changing-store cache, the flag
is `undefined` (falsy, modelled `false`), each store is registered in order,
and finally `this.onDispatch(tryToEmitChange)` is wired and its unsubscribe
capability pushed. -/
def initGroup (stores : List Nat) : GroupState :=
  let s0 : GroupState :=
    { releaseHandlers := []
      currentChangingStores := []
      stores := stores
      isAnyOneStoreChanged := false
      dispatchWired := false
      storeChangeWired := []
      pipedStores := []
      groupListeners := [] }
  let s1 := stores.foldl (fun s store => registerStore store s) s0
  { s1 with
    dispatchWired := true
    releaseHandlers := s1.releaseHandlers ++ [Handler.unlistenDispatch] }

/-- `onChange(handler)`: subscribe `id` to `CHANGE_STORE_GROUP` and record the
corresponding removal capability in `_releaseHandlers`. -/
def onChangeSubscribe (id : Nat) (s : GroupState) : GroupState :=
  { s with
    groupListeners := s.groupListeners ++ [id]
    releaseHandlers := s.releaseHandlers ++ [Handler.removeGroupListener id] }

/-- Modelled from the spec: the release handlers themselves are unsubscribe
capabilities produced by the external dispatcher/store framework (almin's
`onDispatch`, `Store#onChange`, `pipe`, `removeListener.bind`), whose code is
not in this repository.  Per the spec, "subscriptions are assumed removed by
the handlers themselves": invoking a capability removes exactly the
subscription it was created for, and touches nothing else. -/
def runHandler (h : Handler) (s : GroupState) : GroupState :=
  match h with
  | Handler.unlistenDispatch => { s with dispatchWired := false }
  | Handler.unlistenStoreChange store =>
      { s with storeChangeWired := s.storeChangeWired.erase store }
  | Handler.unpipe store => { s with pipedStores := s.pipedStores.erase store }
  | Handler.removeGroupListener id =>
      { s with groupListeners := s.groupListeners.erase id }

/-- `this._releaseHandlers.forEach(releaseHandler => releaseHandler())`,
additionally returning the log of handler invocations in order. -/
def runHandlers : List Handler → GroupState → GroupState × List Handler
  | [], s => (s, [])
  | h :: hs, s =>
      let s1 := runHandler h s
      let res := runHandlers hs s1
      (res.1, h :: res.2)

/-- `release()`: invoke every recorded handler in list order, then
`this._releaseHandlers.length = 0`.  The second component is the invocation log. -/
def release (s : GroupState) : GroupState × List Handler :=
  let res := runHandlers s.releaseHandlers s
  ({ res.1 with releaseHandlers := [] }, res.2)

/-- Delivery of an individual store's change notification: the callback runs
only while the store's change subscription is wired. -/
def deliverStoreChange (store : Nat) (s : GroupState) : GroupState :=
  if s.storeChangeWired.contains store then storeOnChange store s else s

/-- Delivery of a dispatch event: `tryToEmitChange` runs only while the
`onDispatch` subscription is wired. -/
def deliverDispatch (asap : Bool) (payload : PayloadKind) (meta : DispatchMeta)
    (s : GroupState) : GroupState × Option (List Nat) :=
  if s.dispatchWired then tryToEmitChange asap payload meta s else (s, none)

/-- A whole interval's worth of store-change callbacks, in order. -/
def applyChanges (cs : List Nat) (s : GroupState) : GroupState :=
  cs.foldl (fun s c => storeOnChange c s) s

/-- The dedup-append step of the change callback, extracted:
`indexOf(store) !== -1 ? same : push(store)`. -/
def insertIfAbsent (l : List Nat) (x : Nat) : List Nat :=
  if l.contains x then l else l ++ [x]

/-- Specification-side description of an interval's snapshot: the changed
stores in order of each store's first change, each exactly once. -/
def dedupFirstSpec : List Nat → List Nat
  | [] => []
  | c :: cs => c :: (dedupFirstSpec cs).filter (fun x => x != c)

/-- The flag/set invariant: whenever `_isAnyOneStoreChanged` is raised,
`_currentChangingStores` is non-empty. -/
def Inv (s : GroupState) : Prop :=
  s.isAnyOneStoreChanged = true → s.currentChangingStores ≠ []

/-- Handler-coverage invariant used for teardown: the store-change wiring list
has no duplicates, and every live subscription has its unsubscribe capability
recorded in `_releaseHandlers`. -/
def HInv (s : GroupState) : Prop :=
  s.storeChangeWired.Nodup ∧
  (s.dispatchWired = true → Handler.unlistenDispatch ∈ s.releaseHandlers) ∧
  (∀ store ∈ s.storeChangeWired,
    Handler.unlistenStoreChange store ∈ s.releaseHandlers)

/-- States reachable through the public surface: construction (the validator
rejects duplicate stores, hence the `Nodup` hypothesis), store-change
delivery, dispatch delivery, `onChange` subscription, direct `emitChange`
calls, and `release`. -/
inductive Reachable : GroupState → Prop where
  | init (stores : List Nat) (h : stores.Nodup) : Reachable (initGroup stores)
  | storeChange (s : GroupState) (store : Nat) (hr : Reachable s) :
      Reachable (deliverStoreChange store s)
  | dispatch (s : GroupState) (asap : Bool) (payload : PayloadKind)
      (meta : DispatchMeta) (hr : Reachable s) :
      Reachable (deliverDispatch asap payload meta s).1
  | subscribe (s : GroupState) (id : Nat) (hr : Reachable s) :
      Reachable (onChangeSubscribe id s)
  | emitCall (s : GroupState) (hr : Reachable s) : Reachable (emitChange s).1
  | releaseCall (s : GroupState) (hr : Reachable s) : Reachable (release s).1

/-!
Model of `getState()` in development mode (`process.env.NODE_ENV !== "production"`),
with JavaScript values.  Object fields carry opaque payloads of a type `α`:
`getState` never inspects a field's value, it only checks `typeof` of each
store's whole state and copies fields around. -/

/-- A JavaScript value as observed by `getState`: `typeof` distinguishes the
constructors, except that `typeof null` is `"object"`. -/
inductive JsValue (α : Type) where
  | vNull : JsValue α
  | vUndefined : JsValue α
  | vBool (b : Bool) : JsValue α
  | vNum (n : Int) : JsValue α
  | vStr (str : String) : JsValue α
  | vObj (fields : List (String × α)) : JsValue α
  deriving DecidableEq

/-- JavaScript's `typeof` operator, including the `typeof null == "object"` quirk. -/
def jsTypeof {α : Type} : JsValue α → String
  | JsValue.vNull => "object"
  | JsValue.vUndefined => "undefined"
  | JsValue.vBool _ => "boolean"
  | JsValue.vNum _ => "number"
  | JsValue.vStr _ => "string"
  | JsValue.vObj _ => "object"

/-- JavaScript primitives: everything except objects (`null` is a primitive). -/
def isPrimitive {α : Type} : JsValue α → Bool
  | JsValue.vObj _ => false
  | _ => true

/-- A store as `getState` sees it: a `name` and the value its `getState()` returns. -/
structure ModelStore (α : Type) where
  name : String
  state : JsValue α
  deriving DecidableEq

/-- The assertion message of `getState`; the source template interpolates the
store and its name (the external stringification of the store itself is
omitted, the identifying `store.name` part is kept). -/
def assertMessage (name : String) : String :=
  name ++ ".getState() should return Object"

/-- The own enumerable properties `Object.assign` reads from a source that
passed the `typeof == "object"` check: an object's fields, or nothing for `null`. -/
def sourceFields {α : Type} : JsValue α → List (String × α)
  | JsValue.vObj fields => fields
  | _ => []

/-- Property assignment on an object: overwrite an existing key in place,
otherwise append the new key (JavaScript own-property update order). -/
def setProp {α : Type} : List (String × α) → String → α → List (String × α)
  | [], k, v => [(k, v)]
  | (k0, v0) :: rest, k, v =>
      if k0 = k then (k0, v) :: rest else (k0, v0) :: setProp rest k v

/-- `Object.assign(target, src)`: copy each own enumerable property of `src`
onto `target` in order. -/
def objectAssign {α : Type} (target src : List (String × α)) : List (String × α) :=
  src.foldl (fun t kv => setProp t kv.1 kv.2) target

/-- The `this.stores.map(...)` phase of `getState`: compute each store's next
state in order; in development mode `assert.ok(typeof nextState == "object", ...)`
throws at the first store whose state fails the check. -/
def collectStates {α : Type} : List (ModelStore α) → Except String (List (JsValue α))
  | [] => Except.ok []
  | st :: rest =>
      if jsTypeof st.state = "object" then
        match collectStates rest with
        | Except.ok states => Except.ok (st.state :: states)
        | Except.error msg => Except.error msg
      else Except.error (assertMessage st.name)

/-- `getState()` in development mode: map over the stores with the assertion,
then `ObjectAssign({}, ...stateMap)`. -/
def getStateModel {α : Type} (stores : List (ModelStore α)) : Except String (JsValue α) :=
  match collectStates stores with
  | Except.ok states =>
      Except.ok (JsValue.vObj
        (states.foldl (fun acc v => objectAssign acc (sourceFields v)) []))
  | Except.error msg => Except.error msg

/-- Specification-side lookup across the merged states: the binding of the
latest store that defines the key (later stores override earlier ones). -/
def specLookup {α : Type} : List (JsValue α) → String → Option α
  | [], _ => none
  | v :: rest, k =>
      match specLookup rest k with
      | some r => some r
      | none => (sourceFields v).lookup k

/-! ## Helper lemmas -/

theorem storeOnChange_eq (store : Nat) (s : GroupState) :
    storeOnChange store s =
      { s with
        isAnyOneStoreChanged := true
        currentChangingStores :=
          insertIfAbsent
            (if s.isAnyOneStoreChanged then s.currentChangingStores else [])
            store } := by
  cases s with
  | mk rh ccs sts flag dw scw ps gl =>
    cases flag
    · simp [storeOnChange, pruneCurrentChangingStores, insertIfAbsent]
    · simp only [storeOnChange, pruneCurrentChangingStores, insertIfAbsent,
        Bool.not_true, Bool.false_eq_true, if_false]
      split <;> rename_i hc <;> simp at hc <;> simp [hc]

theorem emitChange_of_flag_false (s : GroupState)
    (h : s.isAnyOneStoreChanged = false) : emitChange s = (s, none) := by
  simp [emitChange, h]

theorem emitChange_of_flag_true (s : GroupState)
    (h : s.isAnyOneStoreChanged = true) :
    emitChange s =
      ({ s with isAnyOneStoreChanged := false }, some s.currentChangingStores) := by
  simp [emitChange, h]

theorem emitChange_preserves (s : GroupState) :
    (emitChange s).1.releaseHandlers = s.releaseHandlers ∧
    (emitChange s).1.currentChangingStores = s.currentChangingStores ∧
    (emitChange s).1.stores = s.stores ∧
    (emitChange s).1.dispatchWired = s.dispatchWired ∧
    (emitChange s).1.storeChangeWired = s.storeChangeWired ∧
    (emitChange s).1.pipedStores = s.pipedStores ∧
    (emitChange s).1.groupListeners = s.groupListeners := by
  cases hflag : s.isAnyOneStoreChanged <;> simp [emitChange, hflag]

theorem tryToEmitChange_fst_cases (asap : Bool) (payload : PayloadKind)
    (meta : DispatchMeta) (s : GroupState) :
    (tryToEmitChange asap payload meta s).1 = s ∨
    (tryToEmitChange asap payload meta s).1 = (emitChange s).1 := by
  unfold tryToEmitChange
  split
  · split
    · right; rfl
    · left; rfl
  · split
    · split
      · right; rfl
      · left; rfl
    · split
      · split
        · left; rfl
        · split
          · right; rfl
          · left; rfl
      · split
        · split
          · left; rfl
          · split
            · right; rfl
            · left; rfl
        · left; rfl

theorem tryToEmitChange_preserves (asap : Bool) (payload : PayloadKind)
    (meta : DispatchMeta) (s : GroupState) :
    (tryToEmitChange asap payload meta s).1.releaseHandlers = s.releaseHandlers ∧
    (tryToEmitChange asap payload meta s).1.currentChangingStores =
      s.currentChangingStores ∧
    (tryToEmitChange asap payload meta s).1.stores = s.stores ∧
    (tryToEmitChange asap payload meta s).1.dispatchWired = s.dispatchWired ∧
    (tryToEmitChange asap payload meta s).1.storeChangeWired = s.storeChangeWired ∧
    (tryToEmitChange asap payload meta s).1.pipedStores = s.pipedStores ∧
    (tryToEmitChange asap payload meta s).1.groupListeners = s.groupListeners := by
  rcases tryToEmitChange_fst_cases asap payload meta s with h | h <;> rw [h]
  · exact ⟨rfl, rfl, rfl, rfl, rfl, rfl, rfl⟩
  · exact emitChange_preserves s

theorem runHandler_preserves (h : Handler) (s : GroupState) :
    (runHandler h s).isAnyOneStoreChanged = s.isAnyOneStoreChanged ∧
    (runHandler h s).currentChangingStores = s.currentChangingStores ∧
    (runHandler h s).releaseHandlers = s.releaseHandlers ∧
    (runHandler h s).stores = s.stores := by
  cases h <;> simp [runHandler]

theorem runHandlers_log (hs : List Handler) (s : GroupState) :
    (runHandlers hs s).2 = hs := by
  induction hs generalizing s with
  | nil => rfl
  | cons h rest ih => simp [runHandlers, ih]

theorem runHandlers_preserves (hs : List Handler) (s : GroupState) :
    (runHandlers hs s).1.isAnyOneStoreChanged = s.isAnyOneStoreChanged ∧
    (runHandlers hs s).1.currentChangingStores = s.currentChangingStores ∧
    (runHandlers hs s).1.releaseHandlers = s.releaseHandlers ∧
    (runHandlers hs s).1.stores = s.stores := by
  induction hs generalizing s with
  | nil => exact ⟨rfl, rfl, rfl, rfl⟩
  | cons h rest ih =>
    obtain ⟨h1, h2, h3, h4⟩ := runHandler_preserves h s
    obtain ⟨i1, i2, i3, i4⟩ := ih (runHandler h s)
    exact ⟨by simp [runHandlers, i1, h1], by simp [runHandlers, i2, h2],
      by simp [runHandlers, i3, h3], by simp [runHandlers, i4, h4]⟩

theorem insertIfAbsent_ne_nil (l : List Nat) (x : Nat) : insertIfAbsent l x ≠ [] := by
  unfold insertIfAbsent
  split
  · rename_i h
    intro hnil
    subst hnil
    simp at h
  · simp

theorem mem_dedupFirstSpec (cs : List Nat) (a : Nat) :
    a ∈ dedupFirstSpec cs ↔ a ∈ cs := by
  induction cs with
  | nil => simp [dedupFirstSpec]
  | cons c rest ih =>
    by_cases hac : a = c <;> simp [dedupFirstSpec, hac, ih]

theorem nodup_dedupFirstSpec (cs : List Nat) : (dedupFirstSpec cs).Nodup := by
  induction cs with
  | nil => simp [dedupFirstSpec]
  | cons c rest ih =>
    refine List.Nodup.cons ?_ (ih.filter _)
    intro hmem
    have := (List.mem_filter.1 hmem).2
    simp at this

theorem sublist_dedupFirstSpec (cs : List Nat) :
    List.Sublist (dedupFirstSpec cs) cs := by
  induction cs with
  | nil => simp [dedupFirstSpec]
  | cons c rest ih =>
    exact List.Sublist.cons₂ c ((List.filter_sublist (dedupFirstSpec rest)).trans ih)

theorem count_dedupFirstSpec (cs : List Nat) (a : Nat) :
    (dedupFirstSpec cs).count a = if a ∈ cs then 1 else 0 := by
  by_cases h : a ∈ cs
  · rw [if_pos h]
    exact List.count_eq_one_of_mem (nodup_dedupFirstSpec cs)
      ((mem_dedupFirstSpec cs a).2 h)
  · rw [if_neg h]
    exact List.count_eq_zero_of_not_mem (fun hc => h ((mem_dedupFirstSpec cs a).1 hc))

theorem foldl_insertIfAbsent_eq (cs : List Nat) (l : List Nat) :
    cs.foldl insertIfAbsent l =
      l ++ (dedupFirstSpec cs).filter (fun x => ! l.contains x) := by
  induction cs generalizing l with
  | nil => simp [dedupFirstSpec]
  | cons c rest ih =>
    rw [List.foldl_cons, ih]
    by_cases hc : c ∈ l
    · have hl : insertIfAbsent l c = l := by simp [insertIfAbsent, hc]
      rw [hl]
      simp only [dedupFirstSpec, List.filter_cons]
      have hcontains : l.contains c = true := by simp [hc]
      simp only [hcontains, Bool.not_true, if_neg (by simp : ¬false = true),
        List.filter_filter]
      congr 1
      apply List.filter_congr
      intro x _
      by_cases hxc : x = c <;> simp [hxc, hc]
    · have hl : insertIfAbsent l c = l ++ [c] := by simp [insertIfAbsent, hc]
      rw [hl]
      simp only [dedupFirstSpec, List.filter_cons]
      have hcontains : l.contains c = false := by simp [hc]
      simp only [hcontains, Bool.not_false, if_pos rfl, List.filter_filter,
        List.append_assoc, List.singleton_append]
      congr 2
      apply List.filter_congr
      intro x _
      by_cases hxc : x = c <;> simp [hxc, hc]

theorem applyChanges_of_flag_true (cs : List Nat) (s : GroupState)
    (h : s.isAnyOneStoreChanged = true) :
    applyChanges cs s =
      { s with currentChangingStores := cs.foldl insertIfAbsent s.currentChangingStores } := by
  induction cs generalizing s with
  | nil =>
    simp [applyChanges]
  | cons c rest ih =>
    have hstep : storeOnChange c s =
        { s with
          isAnyOneStoreChanged := true
          currentChangingStores := insertIfAbsent s.currentChangingStores c } := by
      rw [storeOnChange_eq, if_pos h]
    have : applyChanges (c :: rest) s = applyChanges rest (storeOnChange c s) := rfl
    rw [this, hstep, ih _ rfl]
    simp [h]

theorem applyChanges_from_clean (cs : List Nat) (s : GroupState)
    (hflag : s.isAnyOneStoreChanged = false) (hne : cs ≠ []) :
    applyChanges cs s =
      { s with
        isAnyOneStoreChanged := true
        currentChangingStores := dedupFirstSpec cs } := by
  cases cs with
  | nil => exact absurd rfl hne
  | cons c rest =>
    have hstep : storeOnChange c s =
        { s with
          isAnyOneStoreChanged := true
          currentChangingStores := [c] } := by
      rw [storeOnChange_eq, if_neg (by simp [hflag])]
      rfl
    have h1 : applyChanges (c :: rest) s = applyChanges rest (storeOnChange c s) := rfl
    rw [h1, hstep, applyChanges_of_flag_true _ _ rfl]
    have h2 : rest.foldl insertIfAbsent [c] = dedupFirstSpec (c :: rest) := by
      rw [foldl_insertIfAbsent_eq]
      simp only [dedupFirstSpec, List.singleton_append]
      congr 1
      apply List.filter_congr
      intro x _
      by_cases hxc : x = c <;> simp [hxc]
    rw [h2]

theorem runHandler_dispatch_mono (h : Handler) (s : GroupState)
    (hw : (runHandler h s).dispatchWired = true) : s.dispatchWired = true := by
  cases h <;> simp_all [runHandler]

theorem runHandler_wired_subset (h : Handler) (s : GroupState) :
    (runHandler h s).storeChangeWired ⊆ s.storeChangeWired := by
  cases h with
  | unlistenDispatch => exact fun _ hx => hx
  | unlistenStoreChange store => exact (List.erase_sublist store s.storeChangeWired).subset
  | unpipe store => exact fun _ hx => hx
  | removeGroupListener id => exact fun _ hx => hx

theorem runHandler_wired_nodup (h : Handler) (s : GroupState)
    (hd : s.storeChangeWired.Nodup) : (runHandler h s).storeChangeWired.Nodup := by
  cases h with
  | unlistenDispatch => exact hd
  | unlistenStoreChange store => exact hd.erase store
  | unpipe store => exact hd
  | removeGroupListener id => exact hd

theorem runHandlers_dispatch_mono (hs : List Handler) (s : GroupState)
    (hw : (runHandlers hs s).1.dispatchWired = true) : s.dispatchWired = true := by
  induction hs generalizing s with
  | nil => exact hw
  | cons h rest ih =>
    exact runHandler_dispatch_mono h s (ih (runHandler h s) hw)

theorem runHandlers_wired_subset (hs : List Handler) (s : GroupState) :
    (runHandlers hs s).1.storeChangeWired ⊆ s.storeChangeWired := by
  induction hs generalizing s with
  | nil => exact fun _ hx => hx
  | cons h rest ih =>
    exact fun x hx => runHandler_wired_subset h s (ih (runHandler h s) hx)

theorem runHandlers_wired_nodup (hs : List Handler) (s : GroupState)
    (hd : s.storeChangeWired.Nodup) : (runHandlers hs s).1.storeChangeWired.Nodup := by
  induction hs generalizing s with
  | nil => exact hd
  | cons h rest ih => exact ih (runHandler h s) (runHandler_wired_nodup h s hd)

theorem runHandlers_dispatch_off (hs : List Handler) (s : GroupState)
    (hmem : Handler.unlistenDispatch ∈ hs) :
    (runHandlers hs s).1.dispatchWired = false := by
  induction hs generalizing s with
  | nil => simp at hmem
  | cons h rest ih =>
    rcases List.mem_cons.1 hmem with heq | hmem'
    · subst heq
      cases hres : (runHandlers rest (runHandler Handler.unlistenDispatch s)).1.dispatchWired
      · exact hres
      · have := runHandlers_dispatch_mono rest _ hres
        simp [runHandler] at this
    · exact ih (runHandler h s) hmem'

theorem runHandlers_store_off (hs : List Handler) (s : GroupState) (store : Nat)
    (hmem : Handler.unlistenStoreChange store ∈ hs)
    (hd : s.storeChangeWired.Nodup) :
    store ∉ (runHandlers hs s).1.storeChangeWired := by
  induction hs generalizing s with
  | nil => simp at hmem
  | cons h rest ih =>
    rcases List.mem_cons.1 hmem with heq | hmem'
    · subst heq
      intro hcontra
      have hsub := runHandlers_wired_subset rest
        (runHandler (Handler.unlistenStoreChange store) s) hcontra
      simp only [runHandler] at hsub
      exact hd.not_mem_erase hsub
    · exact ih (runHandler h s) hmem' (runHandler_wired_nodup h s hd)

theorem registerStore_foldl (stores : List Nat) (s0 : GroupState) :
    stores.foldl (fun s store => registerStore store s) s0 =
      { s0 with
        storeChangeWired := s0.storeChangeWired ++ stores
        pipedStores := s0.pipedStores ++ stores
        releaseHandlers := s0.releaseHandlers ++ registrationHandlers stores } := by
  induction stores generalizing s0 with
  | nil => simp [registrationHandlers]
  | cons st rest ih =>
    rw [List.foldl_cons, ih]
    simp [registerStore, registrationHandlers]

theorem initGroup_eq (stores : List Nat) :
    initGroup stores =
      { releaseHandlers := registrationHandlers stores ++ [Handler.unlistenDispatch]
        currentChangingStores := []
        stores := stores
        isAnyOneStoreChanged := false
        dispatchWired := true
        storeChangeWired := stores
        pipedStores := stores
        groupListeners := [] } := by
  simp [initGroup, registerStore_foldl]

theorem mem_registrationHandlers (stores : List Nat) (store : Nat)
    (h : store ∈ stores) :
    Handler.unlistenStoreChange store ∈ registrationHandlers stores := by
  induction stores with
  | nil => simp at h
  | cons st rest ih =>
    rcases List.mem_cons.1 h with heq | hmem
    · subst heq; simp [registrationHandlers]
    · simp [registrationHandlers, ih hmem]

theorem HInv_congr (s s' : GroupState)
    (hw : s'.storeChangeWired = s.storeChangeWired)
    (hr : s'.releaseHandlers = s.releaseHandlers)
    (hd : s'.dispatchWired = s.dispatchWired)
    (h : HInv s) : HInv s' := by
  unfold HInv at h ⊢
  rw [hw, hr, hd]
  exact h

theorem HInv_initGroup (stores : List Nat) (h : stores.Nodup) :
    HInv (initGroup stores) := by
  rw [initGroup_eq]
  refine ⟨h, ?_, ?_⟩
  · intro _
    exact List.mem_append_right _ (List.mem_singleton.2 rfl)
  · intro store hst
    exact List.mem_append_left _ (mem_registrationHandlers stores store hst)

theorem HInv_deliverStoreChange (store : Nat) (s : GroupState) (h : HInv s) :
    HInv (deliverStoreChange store s) := by
  unfold deliverStoreChange
  split
  · exact HInv_congr s _ (by rw [storeOnChange_eq]) (by rw [storeOnChange_eq])
      (by rw [storeOnChange_eq]) h
  · exact h

theorem HInv_deliverDispatch (asap : Bool) (payload : PayloadKind)
    (meta : DispatchMeta) (s : GroupState) (h : HInv s) :
    HInv (deliverDispatch asap payload meta s).1 := by
  unfold deliverDispatch
  split
  · obtain ⟨h1, _, _, h4, h5, _, _⟩ := tryToEmitChange_preserves asap payload meta s
    exact HInv_congr s _ h5 h1 h4 h
  · exact h

theorem HInv_emitChange (s : GroupState) (h : HInv s) : HInv (emitChange s).1 := by
  obtain ⟨h1, _, _, h4, h5, _, _⟩ := emitChange_preserves s
  exact HInv_congr s _ h5 h1 h4 h

theorem HInv_subscribe (id : Nat) (s : GroupState) (h : HInv s) :
    HInv (onChangeSubscribe id s) := by
  obtain ⟨hn, hd, hw⟩ := h
  refine ⟨hn, ?_, ?_⟩
  · intro ht
    exact List.mem_append_left _ (hd ht)
  · intro store hst
    exact List.mem_append_left _ (hw store hst)

theorem release_unwires (s : GroupState) (h : HInv s) :
    (release s).1.dispatchWired = false ∧ (release s).1.storeChangeWired = [] := by
  obtain ⟨hn, hd, hw⟩ := h
  constructor
  · show (runHandlers s.releaseHandlers s).1.dispatchWired = false
    cases hsd : s.dispatchWired
    · cases hres : (runHandlers s.releaseHandlers s).1.dispatchWired
      · rfl
      · have := runHandlers_dispatch_mono s.releaseHandlers s hres
        rw [hsd] at this
        exact absurd this (by simp)
    · exact runHandlers_dispatch_off s.releaseHandlers s (hd hsd)
  · show (runHandlers s.releaseHandlers s).1.storeChangeWired = []
    refine List.eq_nil_iff_forall_not_mem.2 (fun store hst => ?_)
    have hsub := runHandlers_wired_subset s.releaseHandlers s hst
    exact runHandlers_store_off s.releaseHandlers s store (hw store hsub) hn hst

theorem HInv_release (s : GroupState) (h : HInv s) : HInv (release s).1 := by
  obtain ⟨hdisp, hwired⟩ := release_unwires s h
  refine ⟨by rw [hwired]; exact List.nodup_nil, ?_, ?_⟩
  · intro ht
    rw [hdisp] at ht
    exact absurd ht (by simp)
  · intro store hst
    rw [hwired] at hst
    simp at hst

theorem HInv_reachable (s : GroupState) (hr : Reachable s) : HInv s := by
  induction hr with
  | init stores h => exact HInv_initGroup stores h
  | storeChange s store _ ih => exact HInv_deliverStoreChange store s ih
  | dispatch s asap payload meta _ ih => exact HInv_deliverDispatch asap payload meta s ih
  | subscribe s id _ ih => exact HInv_subscribe id s ih
  | emitCall s _ ih => exact HInv_emitChange s ih
  | releaseCall s _ ih => exact HInv_release s ih

theorem lookup_cons_eq {α : Type} (k a : String) (b : α) (es : List (String × α)) :
    List.lookup k ((a, b) :: es) = if k = a then some b else List.lookup k es := by
  by_cases h : k = a
  · simp only [List.lookup]
    have hb : (k == a) = true := by simp [h]
    rw [hb, if_pos h]
  · simp only [List.lookup]
    have hb : (k == a) = false := by simp [h]
    rw [hb, if_neg h]

theorem lookup_eq_none_of_not_mem_keys {α : Type} (k : String)
    (es : List (String × α)) (h : k ∉ es.map Prod.fst) : List.lookup k es = none := by
  induction es with
  | nil => rfl
  | cons e rest ih =>
    obtain ⟨a, b⟩ := e
    simp only [List.map_cons, List.mem_cons] at h
    push_neg at h
    rw [lookup_cons_eq, if_neg h.1]
    exact ih h.2

theorem lookup_setProp {α : Type} (t : List (String × α)) (k0 : String) (v0 : α)
    (k : String) :
    List.lookup k (setProp t k0 v0) = if k = k0 then some v0 else List.lookup k t := by
  induction t with
  | nil =>
    show List.lookup k [(k0, v0)] = _
    rw [lookup_cons_eq]
  | cons e rest ih =>
    obtain ⟨k1, v1⟩ := e
    simp only [setProp]
    by_cases h10 : k1 = k0
    · rw [if_pos h10]
      subst h10
      rw [lookup_cons_eq, lookup_cons_eq]
      by_cases h : k = k1 <;> simp [h]
    · rw [if_neg h10, lookup_cons_eq, lookup_cons_eq, ih]
      by_cases hk1 : k = k1
      · by_cases hk0 : k = k0
        · exact absurd (hk1.symm.trans hk0) h10
        · simp [hk1, hk0, h10]
      · by_cases hk0 : k = k0
        · simp only [hk1, hk0, if_pos rfl, if_neg]
          simp [hk1]
          exact fun hh => absurd hh.symm h10
        · simp [hk1, hk0]

theorem lookup_objectAssign {α : Type} (src t : List (String × α)) (k : String)
    (hnd : (src.map Prod.fst).Nodup) :
    List.lookup k (objectAssign t src) =
      (List.lookup k src).or (List.lookup k t) := by
  induction src generalizing t with
  | nil => simp [objectAssign]
  | cons e rest ih =>
    obtain ⟨k0, v0⟩ := e
    simp only [List.map_cons, List.nodup_cons] at hnd
    have hfold : objectAssign t ((k0, v0) :: rest) = objectAssign (setProp t k0 v0) rest := rfl
    rw [hfold, ih _ hnd.2, lookup_cons_eq, lookup_setProp]
    by_cases hk : k = k0
    · subst hk
      rw [if_pos rfl, if_pos rfl,
        lookup_eq_none_of_not_mem_keys k rest hnd.1]
      simp
    · rw [if_neg hk, if_neg hk]

theorem lookup_mergeStates {α : Type} (states : List (JsValue α))
    (t : List (String × α)) (k : String)
    (hnd : ∀ v ∈ states, ((sourceFields v).map Prod.fst).Nodup) :
    List.lookup k (states.foldl (fun acc v => objectAssign acc (sourceFields v)) t) =
      (specLookup states k).or (List.lookup k t) := by
  induction states generalizing t with
  | nil => simp [specLookup]
  | cons v rest ih =>
    have hv := hnd v (List.mem_cons_self v rest)
    have hrest : ∀ w ∈ rest, ((sourceFields w).map Prod.fst).Nodup :=
      fun w hw => hnd w (List.mem_cons_of_mem v hw)
    have hfold :
        (v :: rest).foldl (fun acc w => objectAssign acc (sourceFields w)) t =
          rest.foldl (fun acc w => objectAssign acc (sourceFields w))
            (objectAssign t (sourceFields v)) := rfl
    rw [hfold, ih _ hrest, lookup_objectAssign _ _ _ hv]
    cases hrk : specLookup rest k with
    | none => simp [specLookup, hrk]
    | some r => simp [specLookup, hrk]

theorem collectStates_ok {α : Type} (stores : List (ModelStore α))
    (h : ∀ st ∈ stores, jsTypeof st.state = "object") :
    collectStates stores = Except.ok (stores.map (fun st => st.state)) := by
  induction stores with
  | nil => rfl
  | cons st rest ih =>
    have hst := h st (List.mem_cons_self st rest)
    have hrest := fun w hw => h w (List.mem_cons_of_mem st hw)
    simp [collectStates, hst, ih hrest]

theorem collectStates_error {α : Type} (pre : List (ModelStore α))
    (bad : ModelStore α) (post : List (ModelStore α))
    (hpre : ∀ st ∈ pre, jsTypeof st.state = "object")
    (hbad : jsTypeof bad.state ≠ "object") :
    collectStates (pre ++ bad :: post) = Except.error (assertMessage bad.name) := by
  induction pre with
  | nil => simp [collectStates, hbad]
  | cons st rest ih =>
    have hst := hpre st (List.mem_cons_self st rest)
    have hrest := fun w hw => hpre w (List.mem_cons_of_mem st hw)
    simp [collectStates, hst, ih hrest]

theorem hasChangingStore_true_iff (s : GroupState) :
    hasChangingStore s = true ↔ s.currentChangingStores ≠ [] := by
  unfold hasChangingStore
  simp [List.length_eq_zero]

theorem storeOnChange_inv (store : Nat) (s : GroupState) :
    Inv (storeOnChange store s) := by
  rw [storeOnChange_eq]
  intro _
  exact insertIfAbsent_ne_nil _ store

theorem emitChange_inv (s : GroupState) (h : Inv s) : Inv (emitChange s).1 := by
  cases hflag : s.isAnyOneStoreChanged
  · rw [emitChange_of_flag_false s hflag]
    exact h
  · rw [emitChange_of_flag_true s hflag]
    intro hcontra
    exact absurd hcontra (by simp)

theorem tryToEmitChange_inv (asap : Bool) (payload : PayloadKind)
    (meta : DispatchMeta) (s : GroupState) (h : Inv s) :
    Inv (tryToEmitChange asap payload meta s).1 := by
  rcases tryToEmitChange_fst_cases asap payload meta s with heq | heq <;> rw [heq]
  · exact h
  · exact emitChange_inv s h

/-! ## Claim theorems -/

/-- C1, counterexample: the claim asserts that between a flush and the next
store-change callback `hasChangingStore` reports that nothing has changed,
consulting `ChangedFlag` rather than the set.  In the source,
`get hasChangingStore` returns `this.currentChangingStores.length !== 0`: after
a flush that emitted (here the flush of the one-change interval on store `0`),
the set still holds the stale reference `[0]`, and `hasChangingStore` returns
`true`, not the false-equivalent the claim requires. -/
theorem C1_counterexample :
    (emitChange (deliverStoreChange 0 (initGroup [0]))).2 = some [0] ∧
    (emitChange (deliverStoreChange 0 (initGroup [0]))).1.currentChangingStores = [0] ∧
    hasChangingStore (emitChange (deliverStoreChange 0 (initGroup [0]))).1 = true := by
  refine ⟨by decide, by decide, by decide⟩

/-- C1, amended: between a flush (an `emitChange` that emitted) and the next
individual store-change callback, `ChangingStoreSet` still holds the stale
store references from before the flush, and `hasChangingStore` — which
consults the set's emptiness, not `ChangedFlag` — therefore reports `true`;
nevertheless no further notification can be emitted, because `emitChange`
itself is gated on `ChangedFlag`, which the flush reset to `false`. -/
theorem C1_flag_set_duality (s : GroupState) (h : s.isAnyOneStoreChanged = true) :
    (emitChange s).1.currentChangingStores = s.currentChangingStores ∧
    hasChangingStore (emitChange s).1 = hasChangingStore s ∧
    (emitChange s).1.isAnyOneStoreChanged = false ∧
    (emitChange (emitChange s).1).2 = none := by
  rw [emitChange_of_flag_true s h]
  refine ⟨rfl, rfl, rfl, ?_⟩
  rw [emitChange_of_flag_false _ rfl]

/-- C1, witness: the amended theorem at the post-one-change state of a
one-store group. -/
theorem C1_witness :
    (deliverStoreChange 0 (initGroup [0])).isAnyOneStoreChanged = true ∧
    (emitChange (emitChange (deliverStoreChange 0 (initGroup [0]))).1).2 = none :=
  ⟨by decide, (C1_flag_set_duality (deliverStoreChange 0 (initGroup [0]))
      (by decide)).2.2.2⟩

/-- C2: `emitChange` is a no-op when `ChangedFlag` is false (same state, no
notification); when `ChangedFlag` is true it emits exactly one notification
whose payload is the current `ChangingStoreSet` (the source's `.slice()` copy
makes the payload an independent value, so later mutation of the internal set
cannot affect it), resets `ChangedFlag` to false, and leaves every other field
— in particular `ChangingStoreSet`, which is not cleared — unchanged. -/
theorem C2_emitChange_contract (s : GroupState) :
    (s.isAnyOneStoreChanged = false → emitChange s = (s, none)) ∧
    (s.isAnyOneStoreChanged = true →
      emitChange s =
        ({ s with isAnyOneStoreChanged := false }, some s.currentChangingStores)) :=
  ⟨emitChange_of_flag_false s, emitChange_of_flag_true s⟩

/-- C2, witness: both branches at concrete states. -/
theorem C2_witness :
    emitChange (initGroup [0]) = (initGroup [0], none) ∧
    (emitChange (deliverStoreChange 0 (initGroup [0]))).2 = some [0] :=
  ⟨(C2_emitChange_contract (initGroup [0])).1 (by decide),
   by rw [(C2_emitChange_contract (deliverStoreChange 0 (initGroup [0]))).2 (by decide)]
      decide⟩

/-- C3: starting from any state whose `ChangedFlag` is false (just after a
flush, or just after construction) and applying a non-empty sequence `cs` of
store-change callbacks, the set accumulated for the next flush — and the
snapshot that flush emits — is exactly `dedupFirstSpec cs`: each store that
changed at least once appears exactly once (the `count` conjunct), in the
order of each store's first change (`dedupFirstSpec` lists first occurrences
in order, and is a sublist of `cs`).  The result does not depend on the
stale `currentChangingStores` of the starting state, so no store from an
earlier, already-flushed interval appears. -/
theorem C3_interval_snapshot (s : GroupState) (cs : List Nat)
    (hflag : s.isAnyOneStoreChanged = false) (hne : cs ≠ []) :
    (applyChanges cs s).currentChangingStores = dedupFirstSpec cs ∧
    (emitChange (applyChanges cs s)).2 = some (dedupFirstSpec cs) ∧
    List.Sublist (dedupFirstSpec cs) cs ∧
    (∀ a : Nat, (dedupFirstSpec cs).count a = if a ∈ cs then 1 else 0) := by
  have h := applyChanges_from_clean cs s hflag hne
  refine ⟨by rw [h], ?_, sublist_dedupFirstSpec cs, count_dedupFirstSpec cs⟩
  rw [h, emitChange_of_flag_true _ rfl]

/-- C3, witness: a group whose set holds the stale `[0]` from a flushed
interval; the new interval changes store `1` twice, and the next flush
snapshots `[1]` — deduplicated and free of the stale store `0`. -/
theorem C3_witness :
    (emitChange (deliverStoreChange 0 (initGroup [0, 1]))).1.currentChangingStores
      = [0] ∧
    (emitChange (applyChanges [1, 1]
        (emitChange (deliverStoreChange 0 (initGroup [0, 1]))).1)).2 = some [1] := by
  refine ⟨by decide, ?_⟩
  rw [(C3_interval_snapshot (emitChange (deliverStoreChange 0 (initGroup [0, 1]))).1
      [1, 1] (by decide) (by decide)).2.1]
  decide

/-- C4, counterexample: the claim quantifies over every did-execute or
completed dispatch event and asserts that, with `asap` false and a non-null
parent reference, the group takes no action.  But `tryToEmitChange` tests
`!meta.isTrusted` first: a `DidExecutedPayload` dispatched with a non-trusted
meta (and a non-null parent, `asap` false) takes the untrusted branch and
emits a notification. -/
theorem C4_counterexample :
    (tryToEmitChange false PayloadKind.didExecuted
        { isTrusted := false, parentUseCase := some 1 }
        (deliverStoreChange 0 (initGroup [0]))).2 = some [0] := by
  decide

/-- C4, amended: for every **system-trusted** did-execute or completed
dispatch event, if `asap` is false and the event's metadata carries a non-null
parent unit-of-work reference, the group takes no action (state unchanged,
no notification); otherwise the group flushes — it calls `emitChange` iff
`hasChangingStore`, and, in any state satisfying the flag/set invariant in
which some store changed since the last flush, the coalesced notification is
emitted. -/
theorem C4_trusted_executed_flush (asap : Bool) (payload : PayloadKind)
    (meta : DispatchMeta) (s : GroupState)
    (htrusted : meta.isTrusted = true)
    (hkind : payload = PayloadKind.didExecuted ∨ payload = PayloadKind.completed) :
    (asap = false ∧ meta.parentUseCase.isSome = true →
      tryToEmitChange asap payload meta s = (s, none)) ∧
    (asap = true ∨ meta.parentUseCase = none →
      tryToEmitChange asap payload meta s =
        if hasChangingStore s then emitChange s else (s, none)) ∧
    (Inv s → s.isAnyOneStoreChanged = true → asap = true ∨ meta.parentUseCase = none →
      (tryToEmitChange asap payload meta s).2 = some s.currentChangingStores) := by
  have hmain : ∀ hcond : (!asap && meta.parentUseCase.isSome) = false,
      tryToEmitChange asap payload meta s =
        if hasChangingStore s then emitChange s else (s, none) := by
    intro hcond
    rcases hkind with hk | hk <;> subst hk <;>
      simp [tryToEmitChange, htrusted, hcond]
  refine ⟨?_, ?_, ?_⟩
  · rintro ⟨ha, hp⟩
    rcases hkind with hk | hk <;> subst hk <;>
      simp [tryToEmitChange, htrusted, ha, hp]
  · intro h2
    refine hmain ?_
    rcases h2 with ha | hp
    · simp [ha]
    · simp [hp]
  · intro hinv hflag h2
    have hset := hinv hflag
    have hhas : hasChangingStore s = true := (hasChangingStore_true_iff s).2 hset
    have heq := hmain (by rcases h2 with ha | hp
                          · simp [ha]
                          · simp [hp])
    rw [heq, if_pos hhas, emitChange_of_flag_true s hflag]

/-- C4, witness: both the deferral branch (trusted completed event, nested,
`asap:false`: nothing happens) and the flush branch (trusted did-execute
event at the root: the pending change is emitted). -/
theorem C4_witness :
    tryToEmitChange false PayloadKind.completed
        { isTrusted := true, parentUseCase := some 2 }
        (deliverStoreChange 0 (initGroup [0])) =
      (deliverStoreChange 0 (initGroup [0]), none) ∧
    (tryToEmitChange false PayloadKind.didExecuted
        { isTrusted := true, parentUseCase := none }
        (deliverStoreChange 0 (initGroup [0]))).2 = some [0] := by
  constructor
  · exact (C4_trusted_executed_flush false PayloadKind.completed
      { isTrusted := true, parentUseCase := some 2 }
      (deliverStoreChange 0 (initGroup [0])) rfl (Or.inr rfl)).1 ⟨rfl, rfl⟩
  · rw [(C4_trusted_executed_flush false PayloadKind.didExecuted
      { isTrusted := true, parentUseCase := none }
      (deliverStoreChange 0 (initGroup [0])) rfl (Or.inl rfl)).2.2
        (by intro _; decide) (by decide) (Or.inr rfl)]
    decide

/-- C5: for every error dispatch event — whether the meta is system-trusted or
not, whatever the `asap` option and the parent reference — if any store
changed since the last flush (`ChangedFlag` raised; the flag/set invariant
`Inv` holds in every reachable state, see C10), `tryToEmitChange` emits the
coalesced notification immediately. -/
theorem C5_error_flush (asap : Bool) (meta : DispatchMeta) (s : GroupState)
    (hinv : Inv s) (hchanged : s.isAnyOneStoreChanged = true) :
    (tryToEmitChange asap PayloadKind.error meta s).2 =
      some s.currentChangingStores := by
  have hset := hinv hchanged
  have hhas : hasChangingStore s = true := (hasChangingStore_true_iff s).2 hset
  cases htr : meta.isTrusted <;>
    simp [tryToEmitChange, htr, hhas, emitChange_of_flag_true s hchanged]

/-- C5, witness: a trusted error event inside a nested unit of work with
`asap:false` still flushes the pending change. -/
theorem C5_witness :
    (tryToEmitChange false PayloadKind.error
        { isTrusted := true, parentUseCase := some 7 }
        (deliverStoreChange 0 (initGroup [0]))).2 = some [0] := by
  rw [C5_error_flush false { isTrusted := true, parentUseCase := some 7 }
    (deliverStoreChange 0 (initGroup [0])) (by intro _; decide) (by decide)]
  decide

/-- C6: for every dispatch event whose metadata is not system-trusted,
`tryToEmitChange` invokes the flush operation (`emitChange`) exactly when
`ChangingStoreSet` is non-empty (`hasChangingStore`), independent of the
payload kind, the `asap` option, and the parent reference. -/
theorem C6_untrusted_flush (asap : Bool) (payload : PayloadKind)
    (meta : DispatchMeta) (s : GroupState) (h : meta.isTrusted = false) :
    tryToEmitChange asap payload meta s =
      if hasChangingStore s then emitChange s else (s, none) := by
  unfold tryToEmitChange
  rw [h]
  simp

/-- C6, witness: an untrusted completed-kind payload, nested, `asap:false`,
with a pending change: the flush runs. -/
theorem C6_witness :
    (tryToEmitChange false PayloadKind.completed
        { isTrusted := false, parentUseCase := some 3 }
        (deliverStoreChange 1 (initGroup [0, 1]))).2 = some [1] := by
  rw [C6_untrusted_flush false PayloadKind.completed
    { isTrusted := false, parentUseCase := some 3 }
    (deliverStoreChange 1 (initGroup [0, 1])) rfl]
  decide

/-- C7: after `release()` on any reachable group state, a store-change
notification no longer runs the store-change callback (the state is
unchanged), and a dispatch event no longer runs `tryToEmitChange` (the state
is unchanged and no coalesced notification is delivered): `release` ran every
recorded unsubscribe capability, which removed the dispatch listener and all
store-change listeners. -/
theorem C7_release_quiesces (s : GroupState) (hr : Reachable s) (store : Nat)
    (asap : Bool) (payload : PayloadKind) (meta : DispatchMeta) :
    deliverStoreChange store (release s).1 = (release s).1 ∧
    deliverDispatch asap payload meta (release s).1 = ((release s).1, none) := by
  obtain ⟨hdisp, hwired⟩ := release_unwires s (HInv_reachable s hr)
  constructor
  · unfold deliverStoreChange
    rw [hwired]
    simp
  · unfold deliverDispatch
    rw [hdisp]
    simp

/-- C7, witness: a released one-store group ignores a change of store `0` and
an untrusted dispatch event. -/
theorem C7_witness :
    deliverStoreChange 0 (release (initGroup [0])).1 = (release (initGroup [0])).1 ∧
    deliverDispatch false PayloadKind.plain
        { isTrusted := false, parentUseCase := none }
        (release (initGroup [0])).1 = ((release (initGroup [0])).1, none) :=
  C7_release_quiesces (initGroup [0]) (Reachable.init [0] (by decide)) 0 false
    PayloadKind.plain { isTrusted := false, parentUseCase := none }

/-- C8: `release()` invokes every recorded release handler exactly once, in
insertion order (the invocation log equals the handler list, which is built by
appending at subscription time), then clears the list; a second `release()`
therefore invokes no handler at all. -/
theorem C8_release_exactly_once (s : GroupState) :
    (release s).2 = s.releaseHandlers ∧
    (release s).1.releaseHandlers = [] ∧
    (release (release s).1).2 = [] := by
  refine ⟨runHandlers_log s.releaseHandlers s, rfl, ?_⟩
  have h : (release (release s).1).2 = (release s).1.releaseHandlers :=
    runHandlers_log _ _
  rw [h]
  rfl

/-- C9, counterexample: the claim asserts that every store whose `getState()`
returns a primitive raises the development-mode assertion.  JavaScript's
`null` is a primitive (a non-mapping value), yet `typeof null == "object"`,
so the source's `assert.ok(typeof nextState == "object", ...)` passes and
`getState` returns normally (the `null` source contributes no properties to
`Object.assign`). -/
theorem C9_counterexample :
    isPrimitive (JsValue.vNull : JsValue Nat) = true ∧
    getStateModel [({ name := "NullStore", state := JsValue.vNull } : ModelStore Nat)] =
      Except.ok (JsValue.vObj []) :=
  ⟨rfl, rfl⟩

/-- C9, amended: in development mode, for every store whose `getState()`
returns a value whose `typeof` is not `"object"` (i.e. any primitive except
`null`), the group's `getState` raises an assertion failure at the first such
store, and the message identifies that store by name; when every store's
state has `typeof` `"object"` (a structured mapping, or `null`, which merges
as nothing), no assertion is raised and the result is the shallow merge of
the stores' states, later stores overriding earlier ones on key collision
(`specLookup` prefers the later stores). -/
theorem C9_getState_contract {α : Type} (stores : List (ModelStore α)) :
    ((∀ st ∈ stores, jsTypeof st.state = "object") →
     (∀ st ∈ stores, ((sourceFields st.state).map Prod.fst).Nodup) →
      ∃ merged, getStateModel stores = Except.ok (JsValue.vObj merged) ∧
        ∀ k, List.lookup k merged =
          specLookup (stores.map (fun st => st.state)) k) ∧
    (∀ (pre : List (ModelStore α)) (bad : ModelStore α) (post : List (ModelStore α)),
      stores = pre ++ bad :: post →
      (∀ st ∈ pre, jsTypeof st.state = "object") →
      jsTypeof bad.state ≠ "object" →
      getStateModel stores = Except.error (assertMessage bad.name) ∧
      ∃ suffix, assertMessage bad.name = bad.name ++ suffix) := by
  constructor
  · intro h1 h2
    refine ⟨(stores.map (fun st => st.state)).foldl
        (fun acc v => objectAssign acc (sourceFields v)) [], ?_, ?_⟩
    · unfold getStateModel
      rw [collectStates_ok stores h1]
    · intro k
      have hnd : ∀ v ∈ stores.map (fun st => st.state),
          ((sourceFields v).map Prod.fst).Nodup := by
        intro v hv
        obtain ⟨st, hst, hveq⟩ := List.mem_map.1 hv
        exact hveq ▸ h2 st hst
      rw [lookup_mergeStates _ _ k hnd]
      show (specLookup _ k).or (List.lookup k ([] : List (String × α))) = _
      cases specLookup (stores.map (fun st => st.state)) k <;> rfl
  · intro pre bad post heq hpre hbad
    subst heq
    constructor
    · unfold getStateModel
      rw [collectStates_error pre bad post hpre hbad]
    · exact ⟨".getState() should return Object", rfl⟩

/-- C9, witness: two well-formed stores merge with the later one winning on
the shared key `"x"`, and a number-returning store raises the assertion that
names it. -/
theorem C9_witness :
    (∃ merged,
      getStateModel
          [({ name := "A", state := JsValue.vObj [("x", 1)] } : ModelStore Nat),
           { name := "B", state := JsValue.vObj [("x", 2), ("y", 3)] }] =
        Except.ok (JsValue.vObj merged) ∧
      List.lookup "x" merged = some 2) ∧
    getStateModel
        [({ name := "A", state := JsValue.vObj [("x", 1)] } : ModelStore Nat),
         { name := "Bad", state := JsValue.vNum 9 }] =
      Except.error (assertMessage "Bad") := by
  constructor
  · obtain ⟨merged, hok, hlk⟩ :=
      (C9_getState_contract
        [({ name := "A", state := JsValue.vObj [("x", 1)] } : ModelStore Nat),
         { name := "B", state := JsValue.vObj [("x", 2), ("y", 3)] }]).1
        (by decide) (by decide)
    exact ⟨merged, hok, by rw [hlk]; rfl⟩
  · exact ((C9_getState_contract
      [({ name := "A", state := JsValue.vObj [("x", 1)] } : ModelStore Nat),
       { name := "Bad", state := JsValue.vNum 9 }]).2
      [{ name := "A", state := JsValue.vObj [("x", 1)] }]
      { name := "Bad", state := JsValue.vNum 9 } [] rfl
      (by decide) (by decide)).1

/-- C10: the flag/set invariant `Inv` — whenever `ChangedFlag`
(`_isAnyOneStoreChanged`) is true, `ChangingStoreSet`
(`_currentChangingStores`) is non-empty — holds after construction and is
preserved by every store-change callback, every dispatch-event callback,
`emitChange`, and `release`; consequently gating the dispatch-time flush
decision on `hasChangingStore` (the set's non-emptiness) never misses a
pending change recorded by the flag. -/
theorem C10_flag_set_invariant :
    (∀ stores : List Nat, Inv (initGroup stores)) ∧
    (∀ (store : Nat) (s : GroupState), Inv s → Inv (deliverStoreChange store s)) ∧
    (∀ (asap : Bool) (payload : PayloadKind) (meta : DispatchMeta) (s : GroupState),
      Inv s → Inv (deliverDispatch asap payload meta s).1) ∧
    (∀ (asap : Bool) (payload : PayloadKind) (meta : DispatchMeta) (s : GroupState),
      Inv s → Inv (tryToEmitChange asap payload meta s).1) ∧
    (∀ s : GroupState, Inv s → Inv (emitChange s).1) ∧
    (∀ s : GroupState, Inv s → Inv (release s).1) ∧
    (∀ s : GroupState, Inv s → s.isAnyOneStoreChanged = true →
      hasChangingStore s = true) := by
  refine ⟨?_, ?_, ?_, ?_, emitChange_inv, ?_, ?_⟩
  · intro stores
    rw [initGroup_eq]
    intro hcontra
    exact absurd hcontra (by simp)
  · intro store s h
    unfold deliverStoreChange
    split
    · exact storeOnChange_inv store s
    · exact h
  · intro asap payload meta s h
    unfold deliverDispatch
    split
    · exact tryToEmitChange_inv asap payload meta s h
    · exact h
  · exact tryToEmitChange_inv
  · intro s h
    obtain ⟨h1, h2, _, _⟩ := runHandlers_preserves s.releaseHandlers s
    intro hflag
    show (runHandlers s.releaseHandlers s).1.currentChangingStores ≠ []
    rw [h2]
    exact h (by rw [← h1]; exact hflag)
  · intro s h hflag
    exact (hasChangingStore_true_iff s).2 (h hflag)

/-- C10, witness: the store-change-callback conjunct at a concrete state. -/
theorem C10_witness : Inv (deliverStoreChange 0 (initGroup [0])) :=
  C10_flag_set_invariant.2.1 0 (initGroup [0])
    (fun hflag => absurd hflag (by decide))

end QueuedStoreGroupModel
